import Mathlib

/-
Verification of the core logic of the shadow repository: response extraction
(parseRiskScore, parseAnalysisSummary, parseCriticalIssues,
parseRecommendations), the retry/backoff machinery and its error
classifier (isRetryableError, retryWithBackoff), the usage tracker
(CalculateCost, GetSummary), the multi-agent deep analysis pipeline
(runDeepAnalysis) and its prompt builders, and the interactive permission
manager (RequestRootPermission).

Go strings are modelled as lists of characters; Go maps as association
lists; Go float64 arithmetic as exact rationals; Go int64 overflow is
modelled explicitly where it can occur (digit accumulation in
parseRiskScore).  Effectful inputs (the response typed by the user, the
outcome of each AI attempt, sudo availability, wall-clock formatting)
are passed as explicit parameters.
-/

set_option maxRecDepth 100000

namespace Shadow

/-- Go strings, modelled as lists of characters. -/
abbrev GoStr := List Char

/-- View a Lean string literal as a Go string. -/
def gs (s : String) : GoStr := s.data

/-- ASCII lower-casing of one character, as strings.ToLower acts on the
ASCII range relevant to this code base. -/
def goToLowerChar (c : Char) : Char :=
  if 'A' ≤ c ∧ c ≤ 'Z' then Char.ofNat (c.toNat + 32) else c

/-- strings.ToLower. -/
def goToLower (s : GoStr) : GoStr := s.map goToLowerChar

/-- strings.HasPrefix s p, i.e. p is a leading segment of s. -/
def goStartsWith : GoStr → GoStr → Bool
  | _, [] => true
  | [], _ :: _ => false
  | c :: s, d :: p => c = d && goStartsWith s p

/-- strings.Contains s sub. -/
def goContains : GoStr → GoStr → Bool
  | [], sub => goStartsWith [] sub
  | c :: s, sub => goStartsWith (c :: s) sub || goContains s sub

/-- Whitespace as trimmed by strings.TrimSpace (ASCII portion of
unicode.IsSpace). -/
def isSpaceChar (c : Char) : Bool :=
  c = ' ' || c = '\t' || c = '\n' || c = '\r' ||
  c = Char.ofNat 11 || c = Char.ofNat 12

/-- strings.TrimSpace. -/
def goTrimSpace (s : GoStr) : GoStr :=
  ((s.dropWhile isSpaceChar).reverse.dropWhile isSpaceChar).reverse

/-- strings.Split(text, newline): splits on the newline character,
yielding one (possibly empty) piece per separator-delimited segment. -/
def splitNL : GoStr → List GoStr
  | [] => [[]]
  | c :: rest =>
    if c = '\n' then [] :: splitNL rest
    else
      match splitNL rest with
      | h :: t => (c :: h) :: t
      | [] => [[c]]

/-- Two-complement wrap-around as in Go int64 arithmetic. -/
def wrap64 (x : Int) : Int := (x + 2 ^ 63) % 2 ^ 64 - 2 ^ 63

/-- ASCII digit test, as the byte comparisons in parseRiskScore. -/
def isDigitChar (c : Char) : Bool := '0' ≤ c && c ≤ '9'

/-- The inner j-loop of parseRiskScore: accumulate the leading run of
digits into an int64 (wrapping like Go on overflow), starting from acc. -/
def digitRunVal (acc : Int) : GoStr → Int
  | [] => acc
  | c :: rest =>
    if isDigitChar c then digitRunVal (wrap64 (acc * 10 + (c.toNat - 48 : Int))) rest
    else acc

/-- The inner i-loop of parseRiskScore over one line: positions are
tried left to right, the last character of the line excluded
(the loop condition is i < len(line)-1); at each digit position the
leading digit run is parsed and returned if it lies in [0,100]. -/
def scanLineScore : GoStr → Option Int
  | [] => none
  | [_] => none
  | c :: rest =>
    if isDigitChar c then
      let score := digitRunVal 0 (c :: rest)
      if 0 ≤ score ∧ score ≤ 100 then some score else scanLineScore rest
    else scanLineScore rest

/-- The outer loop of parseRiskScore over the lines of the text. -/
def findScore : List GoStr → Int
  | [] => 50
  | l :: rest =>
    if goContains (goToLower l) (gs ("risk score")) then
      match scanLineScore l with
      | some s => s
      | none => findScore rest
    else findScore rest

/-- parseRiskScore from internal/ai/advanced_client.go. -/
def parseRiskScore (text : GoStr) : Int := findScore (splitNL text)

/-- The scan of parseAnalysisSummary: the line after the first line containing
the substring "summary" (case-insensitively), provided a next line exists. -/
def summaryScan : List GoStr → Option GoStr
  | [] => none
  | [_] => none
  | l :: next :: rest =>
    if goContains (goToLower l) (gs ("summary")) then some (goTrimSpace next)
    else summaryScan (next :: rest)

/-- parseAnalysisSummary from internal/ai/advanced_client.go. -/
def parseAnalysisSummary (text : GoStr) : GoStr :=
  match summaryScan (splitNL text) with
  | some s => s
  | none => (splitNL text).headD []

/-- The loop of parseCriticalIssues, carrying the inCritical flag. -/
def criticalLoop : Bool → List GoStr → List GoStr
  | _, [] => []
  | inC, l :: rest =>
    let lower := goToLower l
    if goContains lower (gs ("critical")) then criticalLoop true rest
    else
      let t := goTrimSpace l
      let here :=
        if inC && !t.isEmpty && (goStartsWith t (gs ("-")) || goStartsWith t (gs ("*")))
        then [t] else []
      if inC && goContains lower (gs ("recommendation")) then here
      else here ++ criticalLoop inC rest

/-- parseCriticalIssues from internal/ai/advanced_client.go. -/
def parseCriticalIssues (text : GoStr) : List GoStr := criticalLoop false (splitNL text)

/-- Recommendation record as filled by parseRecommendations
(pkg/models Recommendation; fields not set by the parser omitted). -/
structure Recommendation where
  priority : GoStr
  title : GoStr
  description : GoStr
  impact : GoStr
  effort : GoStr
deriving DecidableEq

/-- The loop of parseRecommendations, carrying the inRecommendations flag. -/
def recsLoop : Bool → List GoStr → List Recommendation
  | _, [] => []
  | inR, l :: rest =>
    let lower := goToLower l
    if goContains lower (gs ("recommendation")) then recsLoop true rest
    else
      let t := goTrimSpace l
      (if inR && !t.isEmpty &&
          (goStartsWith t (gs ("-")) || goStartsWith t (gs ("*")) || goStartsWith t (gs ("1")))
       then [⟨gs ("medium"), t, t, gs ("unknown"), gs ("medium")⟩] else [])
      ++ recsLoop inR rest

/-- parseRecommendations from internal/ai/advanced_client.go. -/
def parseRecommendations (text : GoStr) : List Recommendation := recsLoop false (splitNL text)

/-- Structured AI analysis record (pkg/models AIAnalysis); the wall-clock
Timestamp field is not modelled. -/
structure AIAnalysis where
  scanID : GoStr
  summary : GoStr
  riskScore : Int
  criticalIssues : List GoStr
  recommendations : List Recommendation
deriving DecidableEq

/-- parseAnalysisResponse from internal/ai/agent_manager.go. -/
def parseAnalysisResponse (text scanId : GoStr) : AIAnalysis :=
  ⟨scanId, parseAnalysisSummary text, parseRiskScore text,
   parseCriticalIssues text, parseRecommendations text⟩

/- Characterisations of the string scanning primitives. -/

theorem goStartsWith_iff (s p : GoStr) : goStartsWith s p = true ↔ ∃ t, s = p ++ t := by
  induction p generalizing s with
  | nil => simp [goStartsWith]
  | cons d p ih =>
    cases s with
    | nil => simp [goStartsWith]
    | cons c s =>
      simp only [goStartsWith, Bool.and_eq_true, decide_eq_true_eq, ih,
        List.cons_append, List.cons.injEq]
      constructor
      · rintro ⟨rfl, t, rfl⟩; exact ⟨t, rfl, rfl⟩
      · rintro ⟨t, rfl, rfl⟩; exact ⟨rfl, t, rfl⟩

theorem goContains_iff (s sub : GoStr) : goContains s sub = true ↔ ∃ a b, s = a ++ sub ++ b := by
  induction s with
  | nil =>
    rw [show goContains [] sub = goStartsWith [] sub from rfl, goStartsWith_iff]
    constructor
    · rintro ⟨t, ht⟩; exact ⟨[], t, ht⟩
    · rintro ⟨a, b, h⟩
      cases a with
      | nil => exact ⟨b, h⟩
      | cons x a => simp at h
  | cons c s ih =>
    rw [show goContains (c :: s) sub = (goStartsWith (c :: s) sub || goContains s sub) from rfl,
      Bool.or_eq_true, goStartsWith_iff, ih]
    constructor
    · rintro (⟨t, ht⟩ | ⟨a, b, rfl⟩)
      · exact ⟨[], t, ht⟩
      · exact ⟨c :: a, b, by simp⟩
    · rintro ⟨a, b, h⟩
      cases a with
      | nil => left; exact ⟨b, by simpa using h⟩
      | cons x a =>
        right
        rw [List.cons_append, List.cons_append] at h
        injection h with h1 h2
        exact ⟨a, b, h2⟩

theorem goContains_of_middle (a m b sub : GoStr) (h : goContains m sub = true) :
    goContains (a ++ m ++ b) sub = true := by
  rw [goContains_iff] at h ⊢
  obtain ⟨x, y, rfl⟩ := h
  exact ⟨a ++ x, y ++ b, by simp⟩

theorem goToLower_append (s t : GoStr) : goToLower (s ++ t) = goToLower s ++ goToLower t :=
  List.map_append goToLowerChar s t

theorem goTrimSpace_middle (l : GoStr) : ∃ a b, l = a ++ goTrimSpace l ++ b := by
  refine ⟨l.takeWhile isSpaceChar,
    ((l.dropWhile isSpaceChar).reverse.takeWhile isSpaceChar).reverse, ?_⟩
  rw [List.append_assoc]
  conv_lhs => rw [← List.takeWhile_append_dropWhile (p := isSpaceChar) (l := l)]
  congr 1
  unfold goTrimSpace
  conv_lhs => rw [← List.reverse_reverse (l.dropWhile isSpaceChar)]
  rw [show (l.dropWhile isSpaceChar).reverse
      = (l.dropWhile isSpaceChar).reverse.takeWhile isSpaceChar
        ++ (l.dropWhile isSpaceChar).reverse.dropWhile isSpaceChar from
    (List.takeWhile_append_dropWhile ..).symm]
  rw [List.reverse_append]
  simp

theorem contains_trim_lower {l sub : GoStr}
    (h : goContains (goToLower (goTrimSpace l)) sub = true) :
    goContains (goToLower l) sub = true := by
  obtain ⟨a, b, hl⟩ := goTrimSpace_middle l
  rw [hl, goToLower_append, goToLower_append]
  exact goContains_of_middle _ _ _ _ h

/- Risk-score range invariant. -/

theorem scanLineScore_bound : ∀ (l : GoStr) (s : Int),
    scanLineScore l = some s → 0 ≤ s ∧ s ≤ 100 := by
  intro l
  induction l with
  | nil => intro s h; simp [scanLineScore] at h
  | cons c rest ih =>
    intro s h
    cases rest with
    | nil => simp [scanLineScore] at h
    | cons d rest2 =>
      simp only [scanLineScore] at h
      split at h
      · split at h
        · rename_i hbound
          obtain rfl : _ = s := Option.some.inj h
          exact hbound
        · exact ih s h
      · exact ih s h

theorem findScore_bound : ∀ ls : List GoStr, 0 ≤ findScore ls ∧ findScore ls ≤ 100 := by
  intro ls
  induction ls with
  | nil => exact ⟨by rw [findScore]; norm_num, by rw [findScore]; norm_num⟩
  | cons l rest ih =>
    rw [findScore]
    split
    · cases hs : scanLineScore l with
      | none => simpa [hs] using ih
      | some s => simpa [hs] using scanLineScore_bound l s hs
    · exact ih

/-- C7: for every input text, the risk score produced by extraction lies
in [0,100] inclusive. -/
theorem riskScore_in_range (text : GoStr) :
    0 ≤ parseRiskScore text ∧ parseRiskScore text ≤ 100 :=
  findScore_bound (splitNL text)

/- C4: behaviour of parseRiskScore on out-of-range digit runs. -/

theorem findScore_default : ∀ ls : List GoStr,
    (ls.all fun l => !goContains (goToLower l) (gs ("risk score"))) = true →
    findScore ls = 50 := by
  intro ls h
  induction ls with
  | nil => rfl
  | cons l rest ih =>
    rw [List.all_cons, Bool.and_eq_true] at h
    obtain ⟨h1, h2⟩ := h
    rw [findScore]
    have hc : goContains (goToLower l) (gs ("risk score")) = false := by
      simpa using h1
    simp only [hc]
    exact ih h2

/-- C4 counterexample: the claim predicts that an out-of-range digit run
within the only matching line falls through to the default 50, so
"Risk Score: 142" would yield 50 and "Risk Score: 7" would yield 7; the
code instead yields 42 (re-parsing from the second digit of the run) and
50 (the final character of a line is never tried as a start position). -/
theorem riskScore_fallthrough_counterexample :
    parseRiskScore (gs ("Risk Score: 142")) = 42 ∧
    parseRiskScore (gs ("Risk Score: 7")) = 50 := by
  constructor
  · decide
  · decide

/-- C4 amended: extraction scans lines for case-insensitive "risk score";
within a matching line it tries every character position except the last
in left-to-right order, parsing the contiguous digit run starting there,
and returns the first value in [0,100] — so an out-of-range run does not
skip the line: a later start inside the same run can yield an in-range
suffix ("Risk Score: 150" yields 50 via the suffix "50").  Only when no
position of any matching line yields an in-range value (in particular
when no line matches at all) is the default 50 returned. -/
theorem riskScore_amended :
    parseRiskScore (gs ("Risk Score: 150")) = 50 ∧
    parseRiskScore (gs ("Risk Score: 87/100")) = 87 ∧
    (∀ text : GoStr,
      ((splitNL text).all fun l => !goContains (goToLower l) (gs ("risk score"))) = true →
      parseRiskScore text = 50) :=
  ⟨by decide, by decide, fun _ h => findScore_default _ h⟩

/-- C4 amended, witness: a text with no matching line defaults to 50. -/
theorem riskScore_amended_w : parseRiskScore (gs ("all good")) = 50 :=
  riskScore_amended.2.2 (gs ("all good")) (by decide)

/- C10: extracted critical issues never contain "critical". -/

theorem criticalLoop_mem : ∀ (lines : List GoStr) (inC : Bool) (x : GoStr),
    x ∈ criticalLoop inC lines →
    goContains (goToLower x) (gs ("critical")) = false := by
  intro lines
  induction lines with
  | nil => intro inC x h; simp [criticalLoop] at h
  | cons l rest ih =>
    intro inC x h
    simp only [criticalLoop] at h
    by_cases hcrit : goContains (goToLower l) (gs ("critical")) = true
    · rw [if_pos hcrit] at h
      exact ih true x h
    · rw [if_neg hcrit] at h
      have hmem : x ∈ (if inC && !(goTrimSpace l).isEmpty &&
          (goStartsWith (goTrimSpace l) (gs ("-")) || goStartsWith (goTrimSpace l) (gs ("*")))
          then [goTrimSpace l] else []) ∨ x ∈ criticalLoop inC rest := by
        split at h
        · exact Or.inl h
        · exact (List.mem_append.mp h).imp id id
      rcases hmem with hx | hx
      · have hxeq : x = goTrimSpace l := by
          split at hx
          · simpa using hx
          · simp at hx
        subst hxeq
        cases hgc : goContains (goToLower (goTrimSpace l)) (gs ("critical")) with
        | false => rfl
        | true => exact absurd (contains_trim_lower hgc) hcrit
      · exact ih inC x hx

/-- C10: for every input text, no element of the list returned by
critical-issue extraction contains the case-insensitive substring
"critical": a line containing "critical" restarts section collection
instead of being collected. -/
theorem criticalIssues_never_contain_critical (text x : GoStr)
    (h : x ∈ parseCriticalIssues text) :
    goContains (goToLower x) (gs ("critical")) = false :=
  criticalLoop_mem (splitNL text) false x h

/-- C10 witness: a concrete extraction with a non-empty result whose
element indeed does not contain "critical". -/
theorem criticalIssues_w :
    goContains (goToLower (gs ("- SQL injection"))) (gs ("critical")) = false :=
  criticalIssues_never_contain_critical
    (gs ("Critical Issues:\n- SQL injection\nRecommendations:"))
    (gs ("- SQL injection")) (by decide)

/- Error model: Go error values as built in this code base — errors.New
sentinels (compared by identity, which the dedicated constructors model),
other errors.New values, and fmt.Errorf wrapping with a message prefix. -/

inductive GoErr where
  | sentinelEmpty : GoErr
  | sentinelRateLimit : GoErr
  | mk (msg : GoStr) : GoErr
  | wrap (pre : GoStr) (inner : GoErr) : GoErr
deriving DecidableEq

/-- err.Error(): the message string of the error. -/
def errText : GoErr → GoStr
  | .sentinelEmpty => gs ("empty AI response")
  | .sentinelRateLimit => gs ("rate limit exceeded")
  | .mk m => m
  | .wrap p inner => p ++ errText inner

/-- errors.Is(e, target): walks the wrap chain comparing identities. -/
def errorIs : GoErr → GoErr → Bool
  | .wrap p inner, t => decide (GoErr.wrap p inner = t) || errorIs inner t
  | e, t => decide (e = t)

/-- The errEmptyResponse sentinel of internal/ai/advanced_client.go. -/
def errEmptyResponse : GoErr := .sentinelEmpty

/-- The errRateLimitExceeded sentinel of internal/ai/advanced_client.go. -/
def errRateLimitExceeded : GoErr := .sentinelRateLimit

/-- The retryablePatterns table of isRetryableError. -/
def retryablePatterns : List GoStr :=
  [gs ("rate limit"), gs ("429"), gs ("timeout"), gs ("temporary"),
   gs ("connection"), gs ("deadline exceeded")]

/-- isRetryableError from internal/ai/advanced_client.go (err is never
nil at its call sites inside the retry loops; the nil guard returns
false and is not representable here). -/
def isRetryableError (err : GoErr) : Bool :=
  if errorIs err errEmptyResponse then true
  else if errorIs err errRateLimitExceeded then true
  else
    let message := goToLower (errText err)
    retryablePatterns.any fun pattern => goContains message pattern

/-- maxRetryAttempts from internal/ai/advanced_client.go. -/
def maxRetryAttempts : Nat := 3

/-- baseRetryDelay from internal/ai/advanced_client.go, in seconds. -/
def baseRetryDelaySec : Nat := 15

/-- The retry loop of retryWithBackoff, with the context assumed live
(cancellation is an external event not modelled here).  outcomes gives
the result of fn on each attempt index; the remaining counter equals
maxRetryAttempts minus the current attempt index.  Returns the final
result, the list of backoff delays slept (in seconds), and the number of
attempts performed. -/
def retryLoop {α : Type} (outcomes : Nat → Except GoErr α) :
    Nat → Nat → GoErr → Except GoErr α × List Nat × Nat
  | _, 0, lastErr => (.error (.wrap (gs ("max retries exceeded: ")) lastErr), [], 0)
  | attempt, remaining + 1, _ =>
    match outcomes attempt with
    | .ok a => (.ok a, [], 1)
    | .error e =>
      if isRetryableError e then
        if remaining = 0 then
          (.error (.wrap (gs ("max retries exceeded: ")) e), [], 1)
        else
          let r := retryLoop outcomes (attempt + 1) remaining e
          (r.1, baseRetryDelaySec * (attempt + 1) :: r.2.1, r.2.2 + 1)
      else (.error e, [], 1)

/-- retryWithBackoff from internal/ai/advanced_client.go (the same loop
is duplicated in the source as retryStringWithBackoff at result type
string, hence the type parameter).  The initial lastErr of the Go code
is nil; it is unreachable because maxRetryAttempts is positive, and an
arbitrary stand-in is passed. -/
def retryWithBackoff {α : Type} (outcomes : Nat → Except GoErr α) :
    Except GoErr α × List Nat × Nat :=
  retryLoop outcomes 0 maxRetryAttempts (.mk [])

/- C2: the retry classifier. -/

theorem errorIs_rateLimit_msg : ∀ e : GoErr, errorIs e errRateLimitExceeded = true →
    goContains (goToLower (errText e)) (gs ("rate limit")) = true := by
  intro e
  induction e with
  | sentinelEmpty => intro h; simp [errorIs, errRateLimitExceeded] at h
  | sentinelRateLimit => intro h; decide
  | mk m => intro h; simp [errorIs, errRateLimitExceeded] at h
  | wrap p inner ih =>
    intro h
    rw [errorIs, Bool.or_eq_true] at h
    rcases h with h | h
    · simp [errRateLimitExceeded] at h
    · have := ih h
      rw [errText, goToLower_append]
      rw [goContains_iff] at this ⊢
      obtain ⟨a, b, hab⟩ := this
      exact ⟨goToLower p ++ a, b, by rw [hab]; simp⟩

/-- C2: an error is classified retryable exactly when its message
contains (case-insensitively) one of "rate limit", "429", "timeout",
"temporary", "connection", "deadline exceeded", or it is the sentinel
empty-response error; every other error is fatal, and a fatal
classification makes the retry loop return it immediately after a
single attempt with no backoff. -/
theorem retryClassifier_correct :
    (∀ e : GoErr, isRetryableError e = true ↔
      ((retryablePatterns.any fun p => goContains (goToLower (errText e)) p) = true ∨
        errorIs e errEmptyResponse = true)) ∧
    (∀ (outcomes : Nat → Except GoErr GoStr) (e : GoErr),
      outcomes 0 = .error e → isRetryableError e = false →
      retryWithBackoff outcomes = (.error e, [], 1)) := by
  constructor
  · intro e
    unfold isRetryableError
    by_cases hemp : errorIs e errEmptyResponse = true
    · simp [hemp]
    · rw [if_neg hemp]
      by_cases hrl : errorIs e errRateLimitExceeded = true
      · rw [if_pos hrl]
        have hmsg := errorIs_rateLimit_msg e hrl
        constructor
        · intro _
          left
          rw [List.any_eq_true]
          exact ⟨gs ("rate limit"), by rw [retryablePatterns]; simp, hmsg⟩
        · intro _; rfl
      · rw [if_neg hrl]
        constructor
        · intro h; exact Or.inl h
        · rintro (h | h)
          · exact h
          · exact absurd h hemp
  · intro outcomes e h0 hfatal
    simp [retryWithBackoff, maxRetryAttempts, retryLoop, h0, hfatal]

/-- C2 witness: a concrete fatal error is returned immediately after one
attempt. -/
theorem retryClassifier_w :
    retryWithBackoff (fun _ => (.error (.mk (gs ("boom"))) : Except GoErr GoStr)) =
      (.error (.mk (gs ("boom"))), [], 1) :=
  retryClassifier_correct.2 (fun _ => .error (.mk (gs ("boom")))) (.mk (gs ("boom")))
    rfl (by decide)

/- C3: the backoff schedule and attempt ceiling. -/

theorem retryLoop_attempts_le {α : Type} (outcomes : Nat → Except GoErr α) :
    ∀ (remaining attempt : Nat) (le : GoErr),
      (retryLoop outcomes attempt remaining le).2.2 ≤ remaining := by
  intro remaining
  induction remaining with
  | zero => intro attempt le; rw [retryLoop]
  | succ n ih =>
    intro attempt le
    rw [retryLoop]
    cases outcomes attempt with
    | ok a => simp
    | error e =>
      by_cases hre : isRetryableError e = true
      · by_cases hn : n = 0
        · simp [hre, hn]
        · have := ih (attempt + 1) e
          simp only [hre, hn, if_true, if_false, Bool.false_eq_true]
          simpa using Nat.add_le_add_right this 1
      · simp [hre]

/-- C3: with retryable failures throughout, the loop performs exactly 3
attempts and never a 4th (the attempt count is bounded by 3 for every
outcome sequence), the delays slept before the second and third attempts
are exactly 15s and 30s, and the final result is a retries-exhausted
error wrapping the last observed failure. -/
theorem retryBackoff_schedule :
    (∀ (outcomes : Nat → Except GoErr GoStr),
      (retryWithBackoff outcomes).2.2 ≤ 3) ∧
    (∀ (outcomes : Nat → Except GoErr GoStr) (e0 e1 e2 : GoErr),
      outcomes 0 = .error e0 → outcomes 1 = .error e1 → outcomes 2 = .error e2 →
      isRetryableError e0 = true → isRetryableError e1 = true →
      isRetryableError e2 = true →
      retryWithBackoff outcomes =
        (.error (.wrap (gs ("max retries exceeded: ")) e2), [15, 30], 3)) := by
  constructor
  · intro outcomes
    exact retryLoop_attempts_le outcomes maxRetryAttempts 0 (.mk [])
  · intro outcomes e0 e1 e2 h0 h1 h2 r0 r1 r2
    simp [retryWithBackoff, maxRetryAttempts, retryLoop, baseRetryDelaySec,
      h0, h1, h2, r0, r1, r2]

/-- C3 witness: a function failing with a timeout on every attempt is
retried exactly twice after the first attempt, with 15s and 30s delays,
then reported as retries-exhausted. -/
theorem retryBackoff_schedule_w :
    retryWithBackoff (fun _ => (.error (.mk (gs ("timeout"))) : Except GoErr GoStr)) =
      (.error (.wrap (gs ("max retries exceeded: ")) (.mk (gs ("timeout")))), [15, 30], 3) :=
  retryBackoff_schedule.2 (fun _ => .error (.mk (gs ("timeout"))))
    (.mk (gs ("timeout"))) (.mk (gs ("timeout"))) (.mk (gs ("timeout")))
    rfl rfl rfl (by decide) (by decide) (by decide)

/- Usage tracker (internal/ai/usage_tracker.go).  Go float64 amounts are
modelled as exact rationals; Go maps as association lists with the Go
semantics of lookup-returns-zero-value and in-place update; the mutex of
the tracker serialises access and is not itself modelled. -/

/-- Lookup in an association-list map; none models a missing key. -/
def mapFind {β : Type} : List (GoStr × β) → GoStr → Option β
  | [], _ => none
  | (k, v) :: rest, key => if k = key then some v else mapFind rest key

/-- Go map assignment m[k] = v: replace the binding in place or add it. -/
def mapPut {β : Type} : List (GoStr × β) → GoStr → β → List (GoStr × β)
  | [], key, v => [(key, v)]
  | (k, w) :: rest, key, v =>
    if k = key then (key, v) :: rest else (k, w) :: mapPut rest key v

/-- The static modelPricing table (input rate, output rate per million
tokens, in dollars). -/
def modelPricing : List (GoStr × (Rat × Rat)) :=
  [(gs ("claude-opus-4.6"), (15, 75)),
   (gs ("claude-sonnet-4.5"), (3, 15)),
   (gs ("claude-sonnet-4.5-20250929"), (3, 15)),
   (gs ("claude-haiku-4.5"), (4 / 5, 4))]

/-- UsageStats record; start and end times are opaque ticks. -/
structure UsageStats where
  model : GoStr
  agent : GoStr
  inputTokens : Int
  outputTokens : Int
  duration : Int
  startTime : Int
  endTime : Int
  success : Bool
  errText : GoStr
deriving DecidableEq

/-- CalculateCost from internal/ai/usage_tracker.go. -/
def CalculateCost (u : UsageStats) : Rat :=
  match mapFind modelPricing u.model with
  | none => 0
  | some pricing =>
    (u.inputTokens : Rat) / 1000000 * pricing.1 +
      (u.outputTokens : Rat) / 1000000 * pricing.2

/-- Per-agent summary bucket. -/
structure AgentSummary where
  agent : GoStr
  model : GoStr
  inputTokens : Int
  outputTokens : Int
  cost : Rat
  duration : Int
  operations : Int
  successes : Int
deriving DecidableEq

/-- The zero value a Go map read yields for a missing AgentSummary. -/
def AgentSummary.zero : AgentSummary := ⟨[], [], 0, 0, 0, 0, 0, 0⟩

/-- Per-model summary bucket. -/
structure ModelSummary where
  model : GoStr
  inputTokens : Int
  outputTokens : Int
  cost : Rat
  operations : Int
deriving DecidableEq

/-- The zero value a Go map read yields for a missing ModelSummary. -/
def ModelSummary.zero : ModelSummary := ⟨[], 0, 0, 0, 0⟩

/-- UsageSummary record. -/
structure UsageSummary where
  totalInputTokens : Int
  totalOutputTokens : Int
  totalCost : Rat
  totalDuration : Int
  totalOperations : Int
  successfulOperations : Int
  byAgent : List (GoStr × AgentSummary)
  byModel : List (GoStr × ModelSummary)
deriving DecidableEq

/-- One iteration of the GetSummary loop body. -/
def summaryStep (s : UsageSummary) (usage : UsageStats) : UsageSummary :=
  let withTotals : UsageSummary :=
    { s with
      totalInputTokens := s.totalInputTokens + usage.inputTokens
      totalOutputTokens := s.totalOutputTokens + usage.outputTokens
      totalCost := s.totalCost + CalculateCost usage
      totalDuration := s.totalDuration + usage.duration
      totalOperations := s.totalOperations + 1
      successfulOperations :=
        s.successfulOperations + if usage.success then 1 else 0 }
  let a0 := (mapFind withTotals.byAgent usage.agent).getD AgentSummary.zero
  let a1 : AgentSummary :=
    { agent := usage.agent
      model := usage.model
      inputTokens := a0.inputTokens + usage.inputTokens
      outputTokens := a0.outputTokens + usage.outputTokens
      cost := a0.cost + CalculateCost usage
      duration := a0.duration + usage.duration
      operations := a0.operations + 1
      successes := a0.successes + if usage.success then 1 else 0 }
  let m0 := (mapFind withTotals.byModel usage.model).getD ModelSummary.zero
  let m1 : ModelSummary :=
    { model := usage.model
      inputTokens := m0.inputTokens + usage.inputTokens
      outputTokens := m0.outputTokens + usage.outputTokens
      cost := m0.cost + CalculateCost usage
      operations := m0.operations + 1 }
  { withTotals with
    byAgent := mapPut withTotals.byAgent usage.agent a1
    byModel := mapPut withTotals.byModel usage.model m1 }

/-- The empty summary GetSummary starts from. -/
def emptySummary : UsageSummary := ⟨0, 0, 0, 0, 0, 0, [], []⟩

/-- GetSummary from internal/ai/usage_tracker.go, as a function of the
recorded usages (a fresh tracker holds the empty list; RecordUsage
appends). -/
def GetSummary (usages : List UsageStats) : UsageSummary :=
  usages.foldl summaryStep emptySummary

theorem summaryFold_totals : ∀ (usages : List UsageStats) (init : UsageSummary),
    (usages.foldl summaryStep init).totalOperations
        = init.totalOperations + usages.length ∧
    (usages.foldl summaryStep init).successfulOperations
        = init.successfulOperations + (usages.filter (fun u => u.success)).length ∧
    (usages.foldl summaryStep init).totalCost
        = init.totalCost + (usages.map CalculateCost).sum := by
  intro usages
  induction usages with
  | nil => intro init; simp
  | cons u rest ih =>
    intro init
    obtain ⟨i1, i2, i3⟩ := ih (summaryStep init u)
    refine ⟨?_, ?_, ?_⟩
    · rw [List.foldl_cons, i1]
      simp [summaryStep]
      omega
    · rw [List.foldl_cons, i2]
      by_cases hu : u.success = true
      · simp [summaryStep, hu]
        omega
      · simp only [Bool.not_eq_true] at hu
        simp [summaryStep, hu]
    · rw [List.foldl_cons, i3]
      simp [summaryStep]
      ring

/-- C5: for every sequence of usage records recorded into a fresh
tracker, GetSummary reports TotalOperations equal to the record count,
SuccessfulOperations equal to the count of successful records, and
TotalCost equal to the sum of per-record costs from the static price
table (a record with an unknown model contributing 0). -/
theorem usageSummary_totals (usages : List UsageStats) :
    (GetSummary usages).totalOperations = usages.length ∧
    (GetSummary usages).successfulOperations
        = (usages.filter (fun u => u.success)).length ∧
    (GetSummary usages).totalCost = (usages.map CalculateCost).sum := by
  obtain ⟨h1, h2, h3⟩ := summaryFold_totals usages emptySummary
  refine ⟨?_, ?_, ?_⟩
  · rw [GetSummary, h1]; simp [emptySummary]
  · rw [GetSummary, h2]; simp [emptySummary]
  · rw [GetSummary, h3]; simp [emptySummary]

/-- Unknown model names price at zero (the side condition of the claim),
checked on a concrete record. -/
theorem unknownModel_cost_zero :
    CalculateCost ⟨gs ("gpt-4"), gs ("agent"), 5000, 1000, 1, 0, 1, true, []⟩ = 0 := by
  decide

/- Permission manager (internal/scanner/permission_manager.go).  The
userApproved map is an association list; the interactive environment is
passed explicitly: whether sudo is available (the cached CheckSudoAvailable
outcome) and the result of reading one line from stdin.  The returned
triple is (result, updated approval map, whether the user was prompted
for input). -/

/-- The userApproved cache of PermissionManager. -/
abbrev PMState := List (GoStr × Bool)

deriving instance DecidableEq for Except

/-- RequestRootPermission from internal/scanner/permission_manager.go. -/
def RequestRootPermission (st : PMState) (tool purpose command : GoStr)
    (sudoAvail : Bool) (readLine : Except GoErr GoStr) :
    Except GoErr Bool × PMState × Bool :=
  let cacheKey := tool ++ gs (":") ++ command
  match mapFind st cacheKey with
  | some approved => (.ok approved, st, false)
  | none =>
    if !sudoAvail then (.error (.mk (gs ("sudo not available"))), st, false)
    else
      match readLine with
      | .error e => (.error e, st, true)
      | .ok raw =>
        let response := goToLower (goTrimSpace raw)
        if response = gs ("yes") ∨ response = gs ("y") then
          (.ok true, mapPut st cacheKey true, true)
        else if response = gs ("always") ∨ response = gs ("a") then
          (.ok true, mapPut (mapPut st (tool ++ gs (":*")) true) cacheKey true, true)
        else if response = gs ("no") ∨ response = gs ("n") then
          (.ok false, mapPut st cacheKey false, true)
        else
          (.ok false, mapPut st cacheKey false, true)

theorem mapPut_find_self {β : Type} : ∀ (m : List (GoStr × β)) (k : GoStr) (v : β),
    mapFind (mapPut m k v) k = some v := by
  intro m k v
  induction m with
  | nil => simp [mapPut, mapFind]
  | cons p rest ih =>
    rw [mapPut]
    by_cases hk : p.1 = k
    · rw [if_pos hk, mapFind, if_pos rfl]
    · rw [if_neg hk, mapFind, if_neg hk]
      exact ih

theorem request_records
    (st : PMState) (tool purpose command : GoStr)
    (sudoAvail : Bool) (readLine : Except GoErr GoStr)
    (h : (RequestRootPermission st tool purpose command sudoAvail readLine).1 = .ok true) :
    mapFind (RequestRootPermission st tool purpose command sudoAvail readLine).2.1
      (tool ++ gs (":") ++ command) = some true := by
  unfold RequestRootPermission at h ⊢
  cases hfind : mapFind st (tool ++ gs (":") ++ command) with
  | some approved =>
    simp only [hfind] at h ⊢
    obtain rfl : approved = true := by simpa using h
    rfl
  | none =>
    simp only [hfind] at h ⊢
    by_cases hs : sudoAvail = true
    · simp only [hs] at h ⊢
      cases hr : readLine with
      | error e => simp [hr] at h
      | ok raw =>
        simp only [hr] at h ⊢
        by_cases h1 : goToLower (goTrimSpace raw) = gs ("yes")
            ∨ goToLower (goTrimSpace raw) = gs ("y")
        · simp only [h1, if_true]
          simp [mapPut_find_self]
        · rw [if_neg h1] at h ⊢
          by_cases h2 : goToLower (goTrimSpace raw) = gs ("always")
              ∨ goToLower (goTrimSpace raw) = gs ("a")
          · simp only [h2, if_true]
            simp [mapPut_find_self]
          · rw [if_neg h2] at h ⊢
            by_cases h3 : goToLower (goTrimSpace raw) = gs ("no")
                ∨ goToLower (goTrimSpace raw) = gs ("n")
            · rw [if_pos h3] at h; simp at h
            · rw [if_neg h3] at h; simp at h
    · have hs2 : sudoAvail = false := by
        cases sudoAvail
        · rfl
        · exact absurd rfl hs
      simp [hs2] at h

/-- C8: after a call on (tool, command) whose result is approved, a
second call with the identical (tool, command) returns approved again
with the state unchanged and without prompting the user, whatever the
sudo probe or stdin would do on the second call. -/
theorem permission_idempotent
    (st : PMState) (tool purpose command purpose2 : GoStr)
    (sudoAvail sudo2 : Bool) (readLine read2 : Except GoErr GoStr)
    (h : (RequestRootPermission st tool purpose command sudoAvail readLine).1 = .ok true) :
    RequestRootPermission
        (RequestRootPermission st tool purpose command sudoAvail readLine).2.1
        tool purpose2 command sudo2 read2
      = (.ok true,
         (RequestRootPermission st tool purpose command sudoAvail readLine).2.1,
         false) := by
  have hfind := request_records st tool purpose command sudoAvail readLine h
  generalize hg : (RequestRootPermission st tool purpose command sudoAvail readLine).2.1 = st1
  rw [hg] at hfind
  rw [List.append_assoc] at hfind
  unfold RequestRootPermission
  simp [hfind]

/-- C8 witness: approving "yes" for a concrete (tool, command) makes the
identical second request return approved without prompting. -/
theorem permission_idempotent_w :
    RequestRootPermission
        (RequestRootPermission [] (gs ("nmap")) (gs ("port scan"))
          (gs ("sudo nmap -sS example.com")) true (.ok (gs ("yes")))).2.1
        (gs ("nmap")) (gs ("port scan")) (gs ("sudo nmap -sS example.com"))
        false (.error (.mk (gs ("closed stdin"))))
      = (.ok true,
         (RequestRootPermission [] (gs ("nmap")) (gs ("port scan"))
           (gs ("sudo nmap -sS example.com")) true (.ok (gs ("yes")))).2.1,
         false) :=
  permission_idempotent [] (gs ("nmap")) (gs ("port scan"))
    (gs ("sudo nmap -sS example.com")) (gs ("port scan")) true false
    (.ok (gs ("yes"))) (.error (.mk (gs ("closed stdin")))) (by decide)

/-- The state after answering "always" for nmap with a first command. -/
def alwaysState : PMState :=
  (RequestRootPermission [] (gs ("nmap")) (gs ("port scan"))
    (gs ("sudo nmap -sS example.com")) true (.ok (gs ("always")))).2.1

/-- C1 evidence: although answering "always" records the wildcard key
nmap:* as approved, a later request for the same tool with a different
command string misses the cache (only the exact tool:command key is
consulted), prompts the user again, and follows the new answer — here a
denial.  The claim (and the source comment "Approve all future requests
for this tool") requires immediate approval without prompting. -/
theorem permission_wildcard_not_consulted :
    mapFind alwaysState (gs ("nmap:*")) = some true ∧
    RequestRootPermission alwaysState (gs ("nmap")) (gs ("version scan"))
        (gs ("sudo nmap -sV example.com")) true (.ok (gs ("no")))
      = (.ok false,
         mapPut alwaysState (gs ("nmap:sudo nmap -sV example.com")) false,
         true) := by
  constructor
  · decide
  · decide

/- Prompt construction (internal/ai/agent_manager.go and the
AdvancedClaudeAnalyzer method of internal/ai/advanced_client.go).
Wall-clock formatting (time.Format) is passed in as an already
formatted string, as the builders only splice it. -/

/-- Decimal digits of a positive number, most significant first; the
first argument is fuel (the number itself suffices). -/
def natDigits : Nat → Nat → List Char
  | 0, _ => []
  | _ + 1, 0 => []
  | fuel + 1, n => natDigits fuel (n / 10) ++ [Char.ofNat (48 + n % 10)]

/-- Rendering of a nonnegative integer by the %d verb of fmt. -/
def natToDec (n : Nat) : GoStr := if n = 0 then gs ("0") else natDigits n n

/-- Finding record (pkg/models Finding; the wall-clock timestamp and
metadata map are not consulted by the prompt builders). -/
structure Finding where
  id : GoStr
  ftype : GoStr
  severity : GoStr
  title : GoStr
  description : GoStr
  evidence : GoStr
  location : GoStr
deriving DecidableEq

/-- The loop of formatFindings, numbering findings from 1. -/
def formatLoop : Nat → List Finding → GoStr
  | _, [] => []
  | i, f :: rest =>
    gs ("\n") ++ natToDec i ++ gs (". [") ++ f.severity ++ gs ("] ") ++ f.title
      ++ (if f.description.isEmpty then []
          else gs ("\n   Details: ") ++ f.description)
      ++ formatLoop (i + 1) rest

/-- formatFindings from internal/ai/agent_manager.go. -/
def formatFindings (findings : List Finding) : GoStr :=
  if findings.isEmpty then gs ("No findings detected")
  else formatLoop 1 findings

/-- The package-level buildAnalysisPrompt of internal/ai/agent_manager.go
(used by the quick, standard and default analysis profiles). -/
def buildAnalysisPromptAgents (target timeStr : GoStr) (findings : List Finding) : GoStr :=
  gs ("# Security Scan Analysis Request\n\n## Target Information\n- **Target**: ")
  ++ target
  ++ gs ("\n- **Scan Time**: ") ++ timeStr
  ++ gs ("\n- **Total Findings**: ") ++ natToDec findings.length
  ++ gs ("\n\n## Analysis Tasks\n1. Executive Summary (2-3 sentences)\n2. Critical Issues (top 3-5 vulnerabilities)\n3. Risk Assessment (score 0-100)\n4. Prioritized Recommendations\n5. Potential Attack Chains\n\n## Scan Findings\n")
  ++ formatFindings findings
  ++ gs ("\n\n## Output Format\nUse markdown headings. Be specific and actionable.")

/-- The per-finding loop of the buildAnalysisPrompt method of
AdvancedClaudeAnalyzer. -/
def advancedFindingLoop : Nat → List Finding → GoStr
  | _, [] => []
  | i, f :: rest =>
    gs ("\n### Finding ") ++ natToDec i ++ gs (": [") ++ f.severity ++ gs ("] ")
      ++ f.title ++ gs ("\n- **Type**: ") ++ f.ftype
      ++ gs ("\n- **Description**: ") ++ f.description ++ gs ("\n")
      ++ (if f.evidence.isEmpty then []
          else gs ("- **Evidence**: ") ++ f.evidence ++ gs ("\n"))
      ++ (if f.location.isEmpty then []
          else gs ("- **Location**: ") ++ f.location ++ gs ("\n"))
      ++ advancedFindingLoop (i + 1) rest

/-- The buildAnalysisPrompt method of AdvancedClaudeAnalyzer
(internal/ai/advanced_client.go, lines 267-328). -/
def buildAnalysisPromptAdvanced (target timeStr : GoStr) (findings : List Finding)
    (scanId : GoStr) : GoStr :=
  gs ("# Security Scan Analysis Request\n\n## Target Information\n- **Target**: ")
  ++ target
  ++ gs ("\n- **Scan Time**: ") ++ timeStr
  ++ gs ("\n- **Total Findings**: ") ++ natToDec findings.length
  ++ gs ("\n- **Scan ID**: ") ++ scanId
  ++ gs ("\n\n## Analysis Tasks\n\nPlease analyze these security findings and provide:\n\n1. **Executive Summary** (2-3 sentences)\n   - Overall security posture\n   - Most critical concerns\n   - Business impact\n\n2. **Critical Issues** (list top 3-5)\n   - Issue description\n   - Severity justification\n   - Immediate risk\n\n3. **Risk Assessment**\n   - Overall risk score (0-100)\n   - Scoring rationale\n   - Risk factors\n\n4. **Prioritized Recommendations**\n   - Quick wins (low effort, high impact)\n   - Critical fixes (immediate attention)\n   - Long-term improvements\n\n5. **Attack Chains** (if applicable)\n   - How vulnerabilities could be chained\n   - Potential exploitation scenarios\n\n## Scan Findings\n\n")
  ++ advancedFindingLoop 1 findings
  ++ gs ("\n\n## Output Format\n\nPlease structure your response clearly with markdown headings for each section.\nBe specific, technical, and actionable.")

/-- C9 counterexample: the prompt builder method of AdvancedClaudeAnalyzer,
invoked with an empty findings list and a non-empty target, renders the
count line "**Total Findings**: 0" but nowhere the literal substring
"No findings". -/
theorem advancedPrompt_no_zero_framing :
    goContains
      (buildAnalysisPromptAdvanced (gs ("example.com")) (gs ("2024-01-01T00:00:00Z"))
        [] (gs ("scan-1")))
      (gs ("No findings")) = false := by
  decide

/-- C9 amended: the multi-agent analysis prompt builder of the agent
manager, via formatFindings, always contains the literal substring
"No findings" when the findings list is empty (formatFindings renders
the fixed text "No findings detected"), and prompt construction is a
total function that cannot itself fail; the separate prompt builder of
AdvancedClaudeAnalyzer lacks that substring. -/
theorem agentsPrompt_zero_framing :
    (∀ target timeStr : GoStr,
      goContains (buildAnalysisPromptAgents target timeStr []) (gs ("No findings")) = true) ∧
    formatFindings [] = gs ("No findings detected") := by
  constructor
  · intro target timeStr
    rw [goContains_iff]
    refine ⟨gs ("# Security Scan Analysis Request\n\n## Target Information\n- **Target**: ")
      ++ target
      ++ gs ("\n- **Scan Time**: ") ++ timeStr
      ++ gs ("\n- **Total Findings**: ") ++ natToDec ([] : List Finding).length
      ++ gs ("\n\n## Analysis Tasks\n1. Executive Summary (2-3 sentences)\n2. Critical Issues (top 3-5 vulnerabilities)\n3. Risk Assessment (score 0-100)\n4. Prioritized Recommendations\n5. Potential Attack Chains\n\n## Scan Findings\n"),
      gs (" detected")
        ++ gs ("\n\n## Output Format\nUse markdown headings. Be specific and actionable."), ?_⟩
    rw [buildAnalysisPromptAgents]
    rw [show formatFindings [] = gs ("No findings") ++ gs (" detected") from rfl]
    simp
  · rfl

/- Deep multi-stage analysis (runDeepAnalysis of
internal/ai/agent_manager.go).  The three stage invocations of
AnalyzeWithAgent are external AI calls; their outcomes are passed in as
parameters.  The second return component is the list of warning lines
surfaced through the progress callback (informational stage banners are
not modelled). -/

/-- The combined text template of runDeepAnalysis. -/
def combineDeep (reconResult vulnResult exploitResult : GoStr) : GoStr :=
  gs ("# Reconnaissance Findings\n") ++ reconResult
    ++ gs ("\n\n# Vulnerability Analysis\n") ++ vulnResult
    ++ gs ("\n\n# Exploitation Assessment\n") ++ exploitResult

/-- The placeholder substituted when the exploitation stage fails. -/
def exploitPlaceholder : GoStr := gs ("Exploitation analysis not available.")

/-- runDeepAnalysis from internal/ai/agent_manager.go, as a function of
the scan id and the three stage outcomes. -/
def runDeepAnalysis (scanId : GoStr)
    (recon vuln exploit : Except GoErr GoStr) :
    Except GoErr (AIAnalysis × List GoStr) :=
  match recon with
  | .error e => .error (.wrap (gs ("recon stage failed: ")) e)
  | .ok reconResult =>
    match vuln with
    | .error e => .error (.wrap (gs ("vulnerability stage failed: ")) e)
    | .ok vulnResult =>
      match exploit with
      | .error e =>
        .ok (parseAnalysisResponse
              (combineDeep reconResult vulnResult exploitPlaceholder) scanId,
             [gs ("⚠️  Exploitation analysis unavailable: ") ++ errText e])
      | .ok exploitResult =>
        .ok (parseAnalysisResponse
              (combineDeep reconResult vulnResult exploitResult) scanId, [])

/-- C6: a failure of the third (exploitation) stage is non-fatal — the
analysis still succeeds, with the fixed placeholder substituted for the
stage-3 text, one warning surfaced to the caller, and the summary
derived from the combined stage-1/stage-2 text; a failure of the first
(reconnaissance) or second (vulnerability) stage aborts the whole
analysis with an error. -/
theorem deepAnalysis_stage3_nonfatal (scanId r v : GoStr) (e : GoErr) :
    (runDeepAnalysis scanId (.ok r) (.ok v) (.error e)
      = .ok (parseAnalysisResponse (combineDeep r v exploitPlaceholder) scanId,
             [gs ("⚠️  Exploitation analysis unavailable: ") ++ errText e])) ∧
    ((runDeepAnalysis scanId (.ok r) (.ok v) (.error e)).toOption.map
        (fun p => p.1.summary)
      = some (parseAnalysisSummary (combineDeep r v exploitPlaceholder))) ∧
    (∀ vuln exploit : Except GoErr GoStr,
      runDeepAnalysis scanId (.error e) vuln exploit
        = .error (.wrap (gs ("recon stage failed: ")) e)) ∧
    (∀ exploit : Except GoErr GoStr,
      runDeepAnalysis scanId (.ok r) (.error e) exploit
        = .error (.wrap (gs ("vulnerability stage failed: ")) e)) :=
  ⟨rfl, rfl, fun _ _ => rfl, fun _ => rfl⟩

end Shadow
